import Mathlib

/-!
Verification of the analysis engine of the interestingness-xdrl repository
(`interestingness_xdrl/analysis/__init__.py`), of the video fade utility
(`interestingness_xdrl/util/video.py`), and of the string-to-int utility of
cameleon (`cameleon/utils/env.py`).

Python functions are shallowly embedded as Lean functions.  Python floats
appearing as thresholds are modelled as `Option ℚ`, with `none` standing for
NaN (every comparison against NaN is false); Python exceptions are modelled
as `Option`/`Except` results; object mutation is modelled by explicit state
passing (a function receives the object state and returns the new state).
-/

set_option autoImplicit false

/-- Python float division `a / b`: fails (ZeroDivisionError) when `b = 0`. -/
def pydiv (a b : ℚ) : Option ℚ := if b = 0 then none else some (a / b)

/-- Python `int(q)` applied to a (rational-modelled) float: truncation toward
zero. -/
def pyTrunc (q : ℚ) : ℤ :=
  if 0 ≤ q.num then q.num / (q.den : ℤ) else -((-q.num) / (q.den : ℤ))

/-- Float comparison `x >= limit` where the limit may be NaN (`none`): any
comparison with NaN is false, so a NaN limit classifies nothing. -/
def pyGe (x : ℚ) : Option ℚ → Bool
  | none => false
  | some l => decide (l ≤ x)

/-- Float comparison `x <= limit` where the limit may be NaN (`none`). -/
def pyLe (x : ℚ) : Option ℚ → Bool
  | none => false
  | some l => decide (x ≤ l)

/-- One interaction record (`InteractionDataPoint`); of its fields only the
episode-boundary flag `new_episode` drives the analysis-engine control flow
verified here. -/
structure InteractionDataPoint where
  new_episode : Bool
deriving DecidableEq, Repr

/-- The analysis configuration (`AnalysisConfiguration`); only the worker
count `num_processes` is relevant to the verified operations. -/
structure AnalysisConfiguration where
  num_processes : ℤ
deriving DecidableEq, Repr

/-- State of an `AnalysisBase` object.  `data` is an `Option` because
`save` temporarily assigns `self.data = None`. -/
structure AnalysisBase where
  data : Option (List InteractionDataPoint)
  config : AnalysisConfiguration
  img_fmt : String
deriving DecidableEq, Repr

/-- `AnalysisBase.__init__`: stores the data, the configuration and the image
format on the object, with no validation of any kind. -/
def AnalysisBase.init (data : List InteractionDataPoint)
    (analysis_config : AnalysisConfiguration) (img_fmt : String) : AnalysisBase :=
  { data := some data, config := analysis_config, img_fmt := img_fmt }

/-- `AnalysisBase.save`: detaches the raw data (`self.data = None`), then
encodes the object (`pickle.dump` inside `gzip.open`); `encode_ok` says
whether that encoding step succeeds.  On success the method reassigns
`self.data = data` before returning; on failure the exception propagates
with the data field still `None` (the method has no try/finally).  Result:
the success flag and the object state at exit. -/
def AnalysisBase.save (a : AnalysisBase) (encode_ok : Bool) : Bool × AnalysisBase :=
  let data := a.data
  let a1 : AnalysisBase := { a with data := none }
  if encode_ok then (true, { a1 with data := data })
  else (false, a1)

/-- `AnalysisBase._get_mp_pool`: executes `self.config.num_processes = -1`
and then `mp.Pool(self.config.num_processes if self.config.num_processes > 1
else None)`, where `mp.Pool(None)` sizes the pool from the host's detected
core count.  Result: the mutated object state and the effective pool size. -/
def AnalysisBase.get_mp_pool (cpu_count : ℕ) (a : AnalysisBase) : AnalysisBase × ℕ :=
  let a1 : AnalysisBase := { a with config := { a.config with num_processes := -1 } }
  (a1, if a1.config.num_processes > 1 then a1.config.num_processes.toNat else cpu_count)

/-- A concrete analysis object whose configuration asks for 4 workers. -/
def analysisWith4Workers : AnalysisBase :=
  AnalysisBase.init [{ new_episode := true }, { new_episode := false }]
    { num_processes := 4 } "png"

/-- `np.where(flags)[0]` starting at index `i`: the ascending indices at which
the flag is true. -/
def trueIndicesFrom : ℕ → List Bool → List ℕ
  | _, [] => []
  | i, b :: rest =>
    if b then i :: trueIndicesFrom (i + 1) rest else trueIndicesFrom (i + 1) rest

/-- `np.where([datapoint.new_episode for datapoint in self.data])[0].tolist()`
as computed by `_plot_elements_sp`. -/
def ep_breaks (records : List InteractionDataPoint) : List ℕ :=
  trueIndicesFrom 0 (records.map (fun dp => dp.new_episode))

/-- Python `list.remove(x)`: removes the first occurrence of `x`, failing with
a ValueError (`none`) when `x` is absent. -/
def list_remove (xs : List ℕ) (x : ℕ) : Option (List ℕ) :=
  if x ∈ xs then some (xs.erase x) else none

/-- `np.split(xs, breaks)` with the cut positions given as absolute indices;
`off` is the absolute index of the head of `xs`. -/
def npSplitFrom {α : Type} : List α → ℕ → List ℕ → List (List α)
  | xs, _, [] => [xs]
  | xs, off, b :: rest => xs.take (b - off) :: npSplitFrom (xs.drop (b - off)) b rest

/-- `np.split(xs, breaks)`. -/
def np_split {α : Type} (xs : List α) (breaks : List ℕ) : List (List α) :=
  npSplitFrom xs 0 breaks

/-- The episode-splitting prefix of `_plot_elements_sp` (lines 154-157):
`ep_breaks = np.where(new-episode flags)[0].tolist(); ep_breaks.remove(0);
eps_data = np.split(data, ep_breaks)`.  `list.remove(0)` raises a ValueError
(`none`) when the first record's `new_episode` flag is false (index 0 is then
not a break). -/
def plot_sp_eps_data (data : List ℚ) (records : List InteractionDataPoint) :
    Option (List (List ℚ)) :=
  match list_remove (ep_breaks records) 0 with
  | none => none
  | some bs => some (np_split data bs)

/-- `np.arange(start, stop, step)` over naturals (`step = 0` yields `[]`,
numpy would reject it). -/
def arangeFrom (stop step start : ℕ) : List ℕ :=
  if _h : 0 < step ∧ start < stop then start :: arangeFrom stop step (start + step)
  else []
termination_by stop - start
decreasing_by omega

/-- Python slice `xs[i:j]`. -/
def pySlice {α : Type} (xs : List α) (i j : ℕ) : List α := (xs.drop i).take (j - i)

/-- The figure batching of `_plot_elements_sp` (lines 160-163): one batch of
episodes per loop iteration, `eps_data[ep_idx : min(ep_idx + eps_per_plot,
len(eps_data))]` for `ep_idx in np.arange(0, len(eps_data), eps_per_plot)`.
Each batch renders as one figure with one panel per episode. -/
def plot_batches (eps_data : List (List ℚ)) (eps_per_plot : ℕ) : List (List (List ℚ)) :=
  (arangeFrom eps_data.length eps_per_plot 0).map
    (fun ep_idx => pySlice eps_data ep_idx (min (ep_idx + eps_per_plot) eps_data.length))

/-- One iteration of the figure loop of `_plot_elements_sp` (lines 162-203):
`plt.subplots(1, len(plot_eps_data))` with the default `squeeze=True` returns
a bare, non-iterable `Axes` object when the batch holds exactly one episode,
so `for ep, ax in enumerate(axs)` (line 170) raises a TypeError there;
otherwise the figure is rendered with one panel per episode of the batch.
Result: the figure's panel count. -/
def render_figure (plot_eps_data : List (List ℚ)) : Option ℕ :=
  if plot_eps_data.length = 1 then none
  else some plot_eps_data.length

/-- The figure loop of `_plot_elements_sp`: one figure per batch, in batch
order; a TypeError at any single-episode batch aborts the call.  Result: the
panel counts of the rendered figures. -/
def render_figures : List (List (List ℚ)) → Option (List ℕ)
  | [] => some []
  | batch :: rest =>
    match render_figure batch, render_figures rest with
    | some n, some ns => some (n :: ns)
    | _, _ => none

/-- The multi-panel rendering of `_plot_elements_sp` over an episode list:
batch the episodes (lines 160-163), then render one figure per batch
(lines 162-203). -/
def plot_sp_render (eps_data : List (List ℚ)) (eps_per_plot : ℕ) : Option (List ℕ) :=
  render_figures (plot_batches eps_data eps_per_plot)

/-- The above-threshold points of one panel of `_plot_elements_sp` (line 183):
`[[t, ep_data[t]] for t in range(len(ep_data)) if ep_data[t] >= high_limit]`.
The limit is a float that may be NaN (`none`). -/
def highs (ep_data : List ℚ) (high_limit : Option ℚ) : List (ℕ × ℚ) :=
  ((List.range ep_data.length).map (fun t => (t, ep_data.getD t 0))).filter
    (fun p => pyGe p.2 high_limit)

/-- The below-threshold points of one panel of `_plot_elements_sp` (line 186). -/
def lows (ep_data : List ℚ) (low_limit : Option ℚ) : List (ℕ × ℚ) :=
  ((List.range ep_data.length).map (fun t => (t, ep_data.getD t 0))).filter
    (fun p => pyLe p.2 low_limit)

/-- The above-outlier index sequence (first column of `highs`). -/
def above_outliers (ep_data : List ℚ) (high_limit : Option ℚ) : List ℕ :=
  (highs ep_data high_limit).map Prod.fst

/-- The below-outlier index sequence (first column of `lows`). -/
def below_outliers (ep_data : List ℚ) (low_limit : Option ℚ) : List ℕ :=
  (lows ep_data low_limit).map Prod.fst

/-- The row-building loop of `_save_time_dataset_csv`: state `(ep, ep_t)`
starts at `(-1, 0)`; at each record, `if datapoint.new_episode or ep == -1:
ep += 1; ep_t = 0`, then one row `(ep, ep_t, element_data[t])` is emitted and
`ep_t += 1`.  The element series is consumed positionally; if it is shorter
than the record sequence the Python loop dies with an IndexError (`none`). -/
def csvGo : List InteractionDataPoint → List ℚ → ℤ → ℕ → Option (List (ℤ × ℕ × ℚ))
  | [], _, _, _ => some []
  | _ :: _, [], _, _ => none
  | dp :: rest, v :: edRest, ep, ep_t =>
    let ep1 : ℤ := if dp.new_episode ∨ ep = -1 then ep + 1 else ep
    let ep_t1 : ℕ := if dp.new_episode ∨ ep = -1 then 0 else ep_t
    match csvGo rest edRest ep1 (ep_t1 + 1) with
    | none => none
    | some rows => some ((ep1, ep_t1, v) :: rows)

/-- `_save_time_dataset_csv` (lines 222-233): the rows of the exported table,
each row `(episode, local timestep, value)`. -/
def save_time_dataset_csv (records : List InteractionDataPoint)
    (element_data : List ℚ) : Option (List (ℤ × ℕ × ℚ)) :=
  csvGo records element_data (-1) 0

/-- The episode/timestep convention between two consecutive exported rows,
stated as the spec states it: at a record whose `new_episode` flag is true
the episode index increments and the local timestep resets to 0; otherwise
the episode index is unchanged and the local timestep increments by 1. -/
def RowStep (dp : InteractionDataPoint) (r1 r2 : ℤ × ℕ × ℚ) : Prop :=
  (dp.new_episode = true → r2.1 = r1.1 + 1 ∧ r2.2.1 = 0) ∧
  (dp.new_episode = false → r2.1 = r1.1 ∧ r2.2.1 = r1.2.1 + 1)

/-- One frame of `fade_video`'s loop body: fade-in for `t < fade_in_frames`,
fade-out for `t >= total_frames - fade_out_frames`, otherwise a plain copy.
The fade ratios are computed by Python float division by `fade_steps`, which
raises a ZeroDivisionError (`none`) when `fade_steps = 0`. -/
def fadeFrameAt {Frame : Type} (fade_image : Frame → ℚ → Frame)
    (total_frames fade_steps fade_in_frames fade_out_frames t : ℤ) (frame : Frame) :
    Option Frame :=
  if t < fade_in_frames then
    (pydiv (t : ℚ) (fade_steps : ℚ)).map (fun q => fade_image frame (1 - q))
  else if total_frames - fade_out_frames ≤ t then
    (pydiv ((t - (total_frames - fade_out_frames) : ℤ) : ℚ) (fade_steps : ℚ)).map
      (fun q => fade_image frame q)
  else some frame

/-- The `for t, frame in enumerate(buffer)` loop of `fade_video`, appending
one (possibly faded) frame per input frame; a ZeroDivisionError anywhere
aborts the whole call. -/
def fadeLoop {Frame : Type} (fade_image : Frame → ℚ → Frame)
    (total_frames fade_steps fade_in_frames fade_out_frames : ℤ) :
    ℤ → List Frame → Option (List Frame)
  | _, [] => some []
  | t, frame :: rest =>
    match fadeFrameAt fade_image total_frames fade_steps fade_in_frames
        fade_out_frames t frame,
      fadeLoop fade_image total_frames fade_steps fade_in_frames fade_out_frames
        (t + 1) rest with
    | some fr, some frs => some (fr :: frs)
    | _, _ => none

/-- `fade_video(buffer, fade_ratio, fade_in, fade_out)` from
`interestingness_xdrl/util/video.py`.  `fade_image` is the external
per-frame compositing collaborator (`util/image.py`, out of scope), taken
as a parameter. -/
def fade_video {Frame : Type} (fade_image : Frame → ℚ → Frame) (buffer : List Frame)
    (fade_ratio : ℚ) (fade_in fade_out : Bool) : Option (List Frame) :=
  if ¬ (fade_in || fade_out) then some buffer
  else
    let total_frames : ℤ := buffer.length
    let fade_steps : ℤ := pyTrunc (fade_ratio * (buffer.length : ℚ))
    let fade_in_frames : ℤ := if fade_in then fade_steps else 0
    let fade_out_frames : ℤ := if fade_out then fade_steps else total_frames
    fadeLoop fade_image total_frames fade_steps fade_in_frames fade_out_frames 0 buffer

/-- Decimal digit value of a character, `none` for a non-digit. -/
def digitVal (c : Char) : Option ℕ :=
  if c.isDigit then some (c.toNat - 48) else none

/-- Parse a non-empty all-digit character list to a natural number. -/
def parseDigits (cs : List Char) : Option ℕ :=
  match cs with
  | [] => none
  | _ =>
    cs.foldl (fun acc c => acc.bind (fun n => (digitVal c).map (fun d => n * 10 + d)))
      (some 0)

/-- Modelled from the host language: Python's built-in `int(s)` on the
decimal grammar — an optional sign followed by at least one digit; anything
else raises a ValueError (`none`).  (Whitespace and underscore forms of the
full CPython grammar are omitted; the verified claims do not involve them.) -/
def pyInt (s : String) : Option ℤ :=
  match s.toList with
  | '-' :: rest => (parseDigits rest).map (fun n => -(n : ℤ))
  | '+' :: rest => (parseDigits rest).map (fun n => (n : ℤ))
  | cs => (parseDigits cs).map (fun n => (n : ℤ))

/-- A Python exception kind distinguished by `str2int`. -/
inductive PyError where
  | valueError
  | assertionError
deriving DecidableEq, Repr

/-- `str2int` from `cameleon/utils/env.py`: returns `None` for the empty
string; otherwise `assert int(s)` raises a ValueError when `s` does not parse
and an AssertionError when the parsed integer is falsy (zero); otherwise the
parsed integer is returned. -/
def str2int (s : String) : Except PyError (Option ℤ) :=
  if s = "" then Except.ok none
  else
    match pyInt s with
    | none => Except.error PyError.valueError
    | some n =>
      if n = 0 then Except.error PyError.assertionError else Except.ok (some n)

/-- Claim C1, counterexample: when the encoding step fails, `save` exits with
the data field still detached (`None`), not restored to its original value. -/
theorem save_failure_leaves_data_detached :
    (analysisWith4Workers.save false).2.data ≠ analysisWith4Workers.data := by
  decide

/-- Claim C1 (amended): `save` detaches the raw record sequence before
encoding and restores it on the successful exit path, returning the object to
exactly its original state; on the failing path the object is left with its
data field detached (`None`), configuration and image format unchanged. -/
theorem save_detach_restore (a : AnalysisBase) :
    (a.save true).2 = a ∧ (a.save false).2 = { a with data := none } := by
  cases a
  constructor <;> rfl

/-- Claim C2 (code bug): with 4 workers configured and 8 detected cores, the
pool is sized from the detected core count (8), not from the configuration
(4), because `_get_mp_pool` overwrites `config.num_processes` with `-1`
before reading it — contradicting its own docstring, which says the pool is
created "according to the number of processes on the config file". -/
theorem pool_ignores_configured_worker_count :
    analysisWith4Workers.config.num_processes = 4 ∧
    (AnalysisBase.get_mp_pool 8 analysisWith4Workers).2 = 8 := by
  constructor <;> rfl

/-- Claim C3 (code bug): creating the parallel pool mutates the shared
configuration object: `num_processes` is 4 before `_get_mp_pool` and `-1`
after it, so the configuration's fields are not preserved. -/
theorem get_mp_pool_mutates_config :
    analysisWith4Workers.config.num_processes = 4 ∧
    (AnalysisBase.get_mp_pool 8 analysisWith4Workers).1.config.num_processes = -1 := by
  constructor <;> rfl

lemma trueIndicesFrom_ge (fs : List Bool) : ∀ (i j : ℕ), j ∈ trueIndicesFrom i fs → i ≤ j := by
  induction fs with
  | nil => intro i j h; simp [trueIndicesFrom] at h
  | cons b rest ih =>
    intro i j h
    simp only [trueIndicesFrom] at h
    by_cases hb : b
    · rw [if_pos hb] at h
      rcases List.mem_cons.mp h with h0 | h1
      · omega
      · have := ih (i + 1) j h1; omega
    · rw [if_neg hb] at h
      have := ih (i + 1) j h; omega

lemma trueIndicesFrom_length (fs : List Bool) :
    ∀ i : ℕ, (trueIndicesFrom i fs).length = fs.count true := by
  induction fs with
  | nil => intro i; simp [trueIndicesFrom]
  | cons b rest ih =>
    intro i
    simp only [trueIndicesFrom]
    by_cases hb : b
    · subst hb
      rw [if_pos rfl]
      simp [List.count_cons, ih]
    · have hb' : b = false := by simpa using hb
      subst hb'
      simp [List.count_cons, ih]

lemma npSplitFrom_flatten {α : Type} (bs : List ℕ) :
    ∀ (xs : List α) (off : ℕ), (npSplitFrom xs off bs).flatten = xs := by
  induction bs with
  | nil => intro xs off; simp [npSplitFrom]
  | cons b rest ih =>
    intro xs off
    simp only [npSplitFrom, List.flatten_cons, ih]
    exact List.take_append_drop _ xs

lemma npSplitFrom_length {α : Type} (bs : List ℕ) :
    ∀ (xs : List α) (off : ℕ), (npSplitFrom xs off bs).length = bs.length + 1 := by
  induction bs with
  | nil => intro xs off; simp [npSplitFrom]
  | cons b rest ih => intro xs off; simp [npSplitFrom, ih]

lemma plot_sp_eps_data_first_false (dp : InteractionDataPoint)
    (rest : List InteractionDataPoint) (series : List ℚ) (h : dp.new_episode = false) :
    plot_sp_eps_data series (dp :: rest) = none := by
  have h0 : 0 ∉ ep_breaks (dp :: rest) := by
    intro hmem
    simp only [ep_breaks, List.map_cons, trueIndicesFrom, h] at hmem
    rw [if_neg (by simp)] at hmem
    have := trueIndicesFrom_ge _ 1 0 hmem
    omega
  simp [plot_sp_eps_data, list_remove, h0]

lemma plot_sp_eps_data_first_true (dp : InteractionDataPoint)
    (rest : List InteractionDataPoint) (series : List ℚ) (h : dp.new_episode = true) :
    plot_sp_eps_data series (dp :: rest) =
      some (np_split series (trueIndicesFrom 1 (rest.map (fun p => p.new_episode)))) := by
  have hbr : ep_breaks (dp :: rest) =
      0 :: trueIndicesFrom 1 (rest.map (fun p => p.new_episode)) := by
    simp [ep_breaks, trueIndicesFrom, h]
  simp [plot_sp_eps_data, list_remove, hbr]

lemma csvGo_cons_true (dp : InteractionDataPoint) (rest : List InteractionDataPoint)
    (v : ℚ) (edRest : List ℚ) (ep : ℤ) (ep_t : ℕ) (hc : dp.new_episode ∨ ep = -1) :
    csvGo (dp :: rest) (v :: edRest) ep ep_t =
      (csvGo rest edRest (ep + 1) (0 + 1)).map (fun rows => (ep + 1, 0, v) :: rows) := by
  simp only [csvGo, if_pos hc]
  cases csvGo rest edRest (ep + 1) (0 + 1) <;> rfl

lemma csvGo_cons_false (dp : InteractionDataPoint) (rest : List InteractionDataPoint)
    (v : ℚ) (edRest : List ℚ) (ep : ℤ) (ep_t : ℕ) (hc : ¬(dp.new_episode ∨ ep = -1)) :
    csvGo (dp :: rest) (v :: edRest) ep ep_t =
      (csvGo rest edRest ep (ep_t + 1)).map (fun rows => (ep, ep_t, v) :: rows) := by
  simp only [csvGo, if_neg hc]
  cases csvGo rest edRest ep (ep_t + 1) <;> rfl

lemma csvGo_spec (records : List InteractionDataPoint) :
    ∀ (ed : List ℚ) (ep : ℤ) (ep_t : ℕ), ed.length = records.length → 0 ≤ ep →
    ∃ rows, csvGo records ed ep ep_t = some rows ∧
      rows.length = records.length ∧
      rows.map (fun r => r.2.2) = ed ∧
      (∀ dp r, records.get? 0 = some dp → rows.get? 0 = some r →
        (dp.new_episode = true → r.1 = ep + 1 ∧ r.2.1 = 0) ∧
        (dp.new_episode = false → r.1 = ep ∧ r.2.1 = ep_t)) ∧
      (∀ t r1 r2 dp, rows.get? t = some r1 → rows.get? (t + 1) = some r2 →
        records.get? (t + 1) = some dp → RowStep dp r1 r2) := by
  induction records with
  | nil =>
    intro ed ep ep_t hlen _
    have hed : ed = [] := List.eq_nil_of_length_eq_zero (by simpa using hlen)
    subst hed
    refine ⟨[], rfl, rfl, rfl, ?_, ?_⟩
    · intro dp r h _; simp at h
    · intro t r1 r2 dp _ _ h3; simp at h3
  | cons dp rest ih =>
    intro ed ep ep_t hlen hep
    cases ed with
    | nil => simp at hlen
    | cons v edRest =>
      have hlen' : edRest.length = rest.length := by simpa using hlen
      by_cases hdp : dp.new_episode = true
      · obtain ⟨rows', heq, hlen2, hmap, hhead, hadj⟩ :=
          ih edRest (ep + 1) (0 + 1) hlen' (by omega)
        refine ⟨(ep + 1, 0, v) :: rows', ?_, ?_, ?_, ?_, ?_⟩
        · rw [csvGo_cons_true dp rest v edRest ep ep_t (Or.inl (by simp [hdp])), heq]
          rfl
        · simpa using hlen2
        · simpa using hmap
        · intro dp0 r h0 hr
          simp only [List.get?_cons_zero] at h0 hr
          injection h0 with h0e
          injection hr with hre
          subst h0e
          subst hre
          refine ⟨fun _ => ⟨rfl, rfl⟩, fun hf => ?_⟩
          rw [hdp] at hf
          exact Bool.noConfusion hf
        · intro t r1 r2 dpt h1 h2 h3
          cases t with
          | zero =>
            simp only [List.get?_cons_zero] at h1
            injection h1 with h1e
            subst h1e
            simp only [List.get?_cons_succ] at h2 h3
            exact hhead dpt r2 h3 h2
          | succ s =>
            simp only [List.get?_cons_succ] at h1 h2 h3
            exact hadj s r1 r2 dpt h1 h2 h3
      · have hdpf : dp.new_episode = false := by simpa using hdp
        have hcond : ¬(dp.new_episode ∨ ep = -1) := by
          rintro (hx | hx)
          · rw [hdpf] at hx; exact Bool.noConfusion hx
          · omega
        obtain ⟨rows', heq, hlen2, hmap, hhead, hadj⟩ :=
          ih edRest ep (ep_t + 1) hlen' hep
        refine ⟨(ep, ep_t, v) :: rows', ?_, ?_, ?_, ?_, ?_⟩
        · rw [csvGo_cons_false dp rest v edRest ep ep_t hcond, heq]
          rfl
        · simpa using hlen2
        · simpa using hmap
        · intro dp0 r h0 hr
          simp only [List.get?_cons_zero] at h0 hr
          injection h0 with h0e
          injection hr with hre
          subst h0e
          subst hre
          refine ⟨fun ht => ?_, fun _ => ⟨rfl, rfl⟩⟩
          rw [hdpf] at ht
          exact Bool.noConfusion ht
        · intro t r1 r2 dpt h1 h2 h3
          cases t with
          | zero =>
            simp only [List.get?_cons_zero] at h1
            injection h1 with h1e
            subst h1e
            simp only [List.get?_cons_succ] at h2 h3
            exact hhead dpt r2 h3 h2
          | succ s =>
            simp only [List.get?_cons_succ] at h1 h2 h3
            exact hadj s r1 r2 dpt h1 h2 h3

lemma save_time_dataset_spec (records : List InteractionDataPoint) (ed : List ℚ)
    (h : ed.length = records.length) :
    ∃ rows, save_time_dataset_csv records ed = some rows ∧
      rows.length = records.length ∧
      rows.map (fun r => r.2.2) = ed ∧
      (∀ r, rows.get? 0 = some r → r.1 = 0 ∧ r.2.1 = 0) ∧
      (∀ t r1 r2 dp, rows.get? t = some r1 → rows.get? (t + 1) = some r2 →
        records.get? (t + 1) = some dp → RowStep dp r1 r2) := by
  cases records with
  | nil =>
    have hed : ed = [] := List.eq_nil_of_length_eq_zero (by simpa using h)
    subst hed
    refine ⟨[], rfl, rfl, rfl, ?_, ?_⟩
    · intro r hr; simp at hr
    · intro t r1 r2 dp _ _ h3; simp at h3
  | cons dp rest =>
    cases ed with
    | nil => simp at h
    | cons v edRest =>
      have hlen' : edRest.length = rest.length := by simpa using h
      obtain ⟨rows', heq, hlen2, hmap, hhead, hadj⟩ :=
        csvGo_spec rest edRest 0 (0 + 1) hlen' (by omega)
      have hm1 : ((-1 : ℤ) + 1) = 0 := by decide
      refine ⟨(0, 0, v) :: rows', ?_, ?_, ?_, ?_, ?_⟩
      · rw [save_time_dataset_csv,
          csvGo_cons_true dp rest v edRest (-1) 0 (Or.inr rfl), hm1, heq]
        rfl
      · simpa using hlen2
      · simpa using hmap
      · intro r hr
        simp only [List.get?_cons_zero] at hr
        injection hr with hre
        subst hre
        exact ⟨rfl, rfl⟩
      · intro t r1 r2 dpt h1 h2 h3
        cases t with
        | zero =>
          simp only [List.get?_cons_zero] at h1
          injection h1 with h1e
          subst h1e
          simp only [List.get?_cons_succ] at h2 h3
          exact hhead dpt r2 h3 h2
        | succ s =>
          simp only [List.get?_cons_succ] at h1 h2 h3
          exact hadj s r1 r2 dpt h1 h2 h3

lemma csv_head_row (dp : InteractionDataPoint) (rest : List InteractionDataPoint)
    (ed : List ℚ) (rows : List (ℤ × ℕ × ℚ))
    (h : save_time_dataset_csv (dp :: rest) ed = some rows) :
    ∀ r, rows.get? 0 = some r → r.1 = 0 ∧ r.2.1 = 0 := by
  cases ed with
  | nil => simp [save_time_dataset_csv, csvGo] at h
  | cons v edRest =>
    rw [save_time_dataset_csv,
      csvGo_cons_true dp rest v edRest (-1) 0 (Or.inr rfl)] at h
    cases heq : csvGo rest edRest ((-1) + 1) (0 + 1) with
    | none => rw [heq] at h; simp at h
    | some rows' =>
      rw [heq] at h
      rw [Option.map_some'] at h
      rw [show ((-1 : ℤ) + 1) = 0 from by decide] at h
      injection h with he
      subst he
      intro r hr
      simp only [List.get?_cons_zero] at hr
      injection hr with hre
      subst hre
      exact ⟨rfl, rfl⟩

lemma arangeFrom_nil (stop step start : ℕ) (h : ¬(0 < step ∧ start < stop)) :
    arangeFrom stop step start = [] := by
  rw [arangeFrom, dif_neg h]

lemma arangeFrom_cons (stop step start : ℕ) (h : 0 < step ∧ start < stop) :
    arangeFrom stop step start = start :: arangeFrom stop step (start + step) := by
  rw [arangeFrom, dif_pos h]

lemma arangeFrom_length_aux (step : ℕ) (hstep : 0 < step) :
    ∀ (d stop start : ℕ), stop - start = d →
      (arangeFrom stop step start).length = (stop - start + step - 1) / step := by
  intro d
  induction d using Nat.strong_induction_on with
  | _ d ih =>
    intro stop start hd
    by_cases h : start < stop
    · rw [arangeFrom_cons stop step start ⟨hstep, h⟩]
      simp only [List.length_cons]
      rw [ih (stop - (start + step)) (by omega) stop (start + step) rfl]
      have h1 : stop - (start + step) = stop - start - step := by omega
      rw [h1]
      have h2 : stop - start + step - 1 = (stop - start - 1) + step := by omega
      rw [h2, Nat.add_div_right _ hstep]
      by_cases hds : stop - start ≤ step
      · have h3 : stop - start - step = 0 := by omega
        rw [h3]
        have h4 : (stop - start - 1) / step = 0 := Nat.div_eq_of_lt (by omega)
        have h5 : (0 + step - 1) / step = 0 := Nat.div_eq_of_lt (by omega)
        rw [h4, h5]
      · have h3 : stop - start - step + step - 1 = stop - start - 1 := by omega
        rw [h3]
    · rw [arangeFrom_nil stop step start (by omega)]
      have h1 : stop - start = 0 := by omega
      rw [h1]
      have h2 : (0 + step - 1) / step = 0 := Nat.div_eq_of_lt (by omega)
      rw [h2]
      rfl

lemma arangeFrom_length (stop step start : ℕ) (hstep : 0 < step) :
    (arangeFrom stop step start).length = (stop - start + step - 1) / step :=
  arangeFrom_length_aux step hstep (stop - start) stop start rfl

lemma batches_flatten_aux (eps : List (List ℚ)) (b : ℕ) (hb : 0 < b) :
    ∀ (d start : ℕ), eps.length - start = d →
      ((arangeFrom eps.length b start).map
        (fun i => pySlice eps i (min (i + b) eps.length))).flatten = eps.drop start := by
  intro d
  induction d using Nat.strong_induction_on with
  | _ d ih =>
    intro start hd
    by_cases h : start < eps.length
    · rw [arangeFrom_cons eps.length b start ⟨hb, h⟩]
      simp only [List.map_cons, List.flatten_cons]
      rw [ih (eps.length - (start + b)) (by omega) (start + b) rfl]
      have hys : (eps.drop start).length = eps.length - start := List.length_drop start eps
      have h1 : pySlice eps start (min (start + b) eps.length) = (eps.drop start).take b := by
        unfold pySlice
        by_cases hsb : start + b ≤ eps.length
        · have : min (start + b) eps.length - start = b := by omega
          rw [this]
        · have h2 : min (start + b) eps.length - start = eps.length - start := by omega
          rw [h2]
          have hA : (eps.drop start).take (eps.length - start) = eps.drop start :=
            List.take_of_length_le (by omega)
          have hB : (eps.drop start).take b = eps.drop start :=
            List.take_of_length_le (by omega)
          rw [hA, hB]
      rw [h1]
      have h3 : eps.drop (start + b) = (eps.drop start).drop b := by
        rw [List.drop_drop]
      rw [h3, List.take_append_drop]
    · rw [arangeFrom_nil eps.length b start (by omega)]
      simp only [List.map_nil, List.flatten_nil]
      rw [List.drop_eq_nil_of_le (by omega)]

lemma fadeLoop_length {Frame : Type} (fi : Frame → ℚ → Frame) (tf fs fif fof : ℤ) :
    ∀ (xs : List Frame) (t : ℤ) (out : List Frame),
      fadeLoop fi tf fs fif fof t xs = some out → out.length = xs.length := by
  intro xs
  induction xs with
  | nil =>
    intro t out h
    simp only [fadeLoop] at h
    injection h with he
    subst he
    rfl
  | cons x rest ih =>
    intro t out h
    simp only [fadeLoop] at h
    cases hf : fadeFrameAt fi tf fs fif fof t x with
    | none => rw [hf] at h; simp at h
    | some fr =>
      cases hr : fadeLoop fi tf fs fif fof (t + 1) rest with
      | none => rw [hf, hr] at h; simp at h
      | some frs =>
        rw [hf, hr] at h
        injection h with he
        subst he
        simp [ih (t + 1) frs hr]

/-- Claim C4, counterexample: when the first record's `new_episode` flag is
false, the multi-panel episode derivation does not treat the first record as
the start of episode 0: it fails with a ValueError (from
`ep_breaks.remove(0)`) instead of producing the episode slices. -/
theorem plot_sp_first_flag_false_fails :
    plot_sp_eps_data [(1 : ℚ), 2] [{ new_episode := false }, { new_episode := true }] =
      none := by
  decide

/-- Claim C4 (amended): the tabular export treats the first record as the
start of episode 0 at local timestep 0 even when its `new_episode` flag is
false; the multi-panel episode splitting instead requires the first record's
flag to be true — it fails with a ValueError when the flag is false — and
when the flag is true it does not double-count the initial boundary: the
episode slices concatenate back to the series and there are exactly as many
slices as records flagged `new_episode`. -/
theorem first_record_episode_zero_convention (dp : InteractionDataPoint)
    (rest : List InteractionDataPoint) (series ed : List ℚ) :
    (dp.new_episode = false → plot_sp_eps_data series (dp :: rest) = none) ∧
    (dp.new_episode = true →
      ∃ pieces, plot_sp_eps_data series (dp :: rest) = some pieces ∧
        pieces.flatten = series ∧
        pieces.length = ((dp :: rest).map (fun p => p.new_episode)).count true) ∧
    (∀ rows, save_time_dataset_csv (dp :: rest) ed = some rows →
      ∀ r, rows.get? 0 = some r → r.1 = 0 ∧ r.2.1 = 0) := by
  refine ⟨?_, ?_, ?_⟩
  · intro h
    exact plot_sp_eps_data_first_false dp rest series h
  · intro h
    refine ⟨np_split series (trueIndicesFrom 1 (rest.map (fun p => p.new_episode))),
      plot_sp_eps_data_first_true dp rest series h, ?_, ?_⟩
    · exact npSplitFrom_flatten _ series 0
    · rw [np_split, npSplitFrom_length, trueIndicesFrom_length]
      simp [h, List.count_cons]
  · intro rows h r hr
    exact csv_head_row dp rest ed rows h r hr

/-- Claim C4, witness: on records `[true, false, true]` with series
`[1, 2, 3]`, the multi-panel splitting succeeds, its pieces concatenate back
to the series, and there is one piece per flagged record. -/
theorem first_record_episode_zero_convention_witness :
    ∃ pieces, plot_sp_eps_data [(1 : ℚ), 2, 3]
        [{ new_episode := true }, { new_episode := false }, { new_episode := true }] =
        some pieces ∧
      pieces.flatten = [(1 : ℚ), 2, 3] ∧
      pieces.length = (([{ new_episode := true }, { new_episode := false },
        { new_episode := true }] : List InteractionDataPoint).map
          (fun p => p.new_episode)).count true :=
  (first_record_episode_zero_convention { new_episode := true }
    [{ new_episode := false }, { new_episode := true }] [1, 2, 3] []).2.1 rfl

lemma render_figures_ok (bs : List (List (List ℚ)))
    (h : ∀ batch ∈ bs, batch.length ≠ 1) :
    render_figures bs = some (bs.map List.length) := by
  induction bs with
  | nil => rfl
  | cons batch rest ih =>
    have h1 : batch.length ≠ 1 := h batch (List.mem_cons_self batch rest)
    have h2 := ih (fun x hx => h x (List.mem_cons_of_mem batch hx))
    simp only [render_figures, render_figure, if_neg h1, h2, List.map_cons]

lemma render_figures_err (bs : List (List (List ℚ)))
    (h : ∃ batch ∈ bs, batch.length = 1) :
    render_figures bs = none := by
  induction bs with
  | nil => simp at h
  | cons batch rest ih =>
    obtain ⟨x, hx, hlen⟩ := h
    rcases List.mem_cons.mp hx with rfl | hx2
    · simp only [render_figures, render_figure, if_pos hlen]
    · simp only [render_figures, ih ⟨x, hx2, hlen⟩]
      cases render_figure batch <;> rfl

/-- Claim C5, counterexample: a single episode with the (historical default)
batch size 10 should yield `ceil(1/10) = 1` figure, but its only batch holds
exactly one episode, `plt.subplots(1, 1)` returns a bare non-iterable `Axes`,
and the rendering fails with a TypeError instead of producing the figure. -/
theorem multi_panel_single_episode_fails :
    plot_sp_render [[(1 : ℚ), 2, 3]] 10 = none := by
  simp [plot_sp_render, plot_batches, arangeFrom, pySlice, render_figures, render_figure]

/-- Claim C5 (amended): when every batch holds at least two episodes, the
multi-panel rendering produces exactly `ceil(E / b)` figures whose panel
counts sum to `E`; and concatenating all batches' panels in order always
reproduces the episode list exactly — no gaps, no overlaps.  But whenever
some batch holds exactly one episode (for instance whenever `b = 1`, or
`E % b = 1`), `plt.subplots(1, 1)` returns a bare non-iterable `Axes` and the
rendering fails with a TypeError instead of producing its figures. -/
theorem multi_panel_batching (eps_data : List (List ℚ)) (b : ℕ)
    (_hE : 1 ≤ eps_data.length) (hb : 1 ≤ b) :
    ((∀ batch ∈ plot_batches eps_data b, batch.length ≠ 1) →
      ∃ counts, plot_sp_render eps_data b = some counts ∧
        counts.length = (eps_data.length + b - 1) / b ∧
        counts.sum = eps_data.length) ∧
    ((∃ batch ∈ plot_batches eps_data b, batch.length = 1) →
      plot_sp_render eps_data b = none) ∧
    ((plot_batches eps_data b).map List.length).sum = eps_data.length ∧
    (plot_batches eps_data b).flatten = eps_data := by
  have hflat : (plot_batches eps_data b).flatten = eps_data := by
    rw [plot_batches]
    have := batches_flatten_aux eps_data b (by omega) (eps_data.length - 0) 0 rfl
    simpa using this
  have hsum : ((plot_batches eps_data b).map List.length).sum = eps_data.length := by
    rw [← List.length_flatten, hflat]
  refine ⟨?_, ?_, hsum, hflat⟩
  · intro hall
    refine ⟨(plot_batches eps_data b).map List.length,
      render_figures_ok _ hall, ?_, hsum⟩
    rw [List.length_map, plot_batches, List.length_map,
      arangeFrom_length _ _ _ (by omega), Nat.sub_zero]
  · intro hex
    exact render_figures_err _ hex

/-- Claim C5, witness: four episodes in batches of two — both batches hold
two episodes, so no TypeError — yield `ceil(4/2) = 2` figures whose panel
counts sum to 4. -/
theorem multi_panel_batching_witness :
    ∃ counts, plot_sp_render [[1], [2], [3], [4]] 2 = some counts ∧
      counts.length = (([[1], [2], [3], [4]] : List (List ℚ)).length + 2 - 1) / 2 ∧
      counts.sum = ([[1], [2], [3], [4]] : List (List ℚ)).length :=
  (multi_panel_batching [[1], [2], [3], [4]] 2 (by decide) (by decide)).1
    (by simp [plot_batches, arangeFrom, pySlice])

lemma getD_zero_eq_get (l : List ℚ) :
    ∀ (t : ℕ) (ht : t < l.length), l.getD t 0 = l.get ⟨t, ht⟩ := by
  induction l with
  | nil => intro t ht; simp at ht
  | cons x rest ih =>
    intro t ht
    cases t with
    | zero => rfl
    | succ s => exact ih s (by simpa using ht)

lemma mem_above_outliers (series : List ℚ) (lim : Option ℚ) (t : ℕ) :
    t ∈ above_outliers series lim ↔
      t < series.length ∧ pyGe (series.getD t 0) lim = true := by
  simp only [above_outliers, highs, List.mem_map, List.mem_filter, List.mem_range]
  constructor
  · rintro ⟨a, ⟨⟨t2, ht2, heq⟩, hcmp⟩, hfst⟩
    subst heq
    simp only at hfst
    subst hfst
    exact ⟨ht2, hcmp⟩
  · rintro ⟨ht, hcmp⟩
    exact ⟨(t, series.getD t 0), ⟨⟨t, ht, rfl⟩, hcmp⟩, rfl⟩

lemma mem_below_outliers (series : List ℚ) (lim : Option ℚ) (t : ℕ) :
    t ∈ below_outliers series lim ↔
      t < series.length ∧ pyLe (series.getD t 0) lim = true := by
  simp only [below_outliers, lows, List.mem_map, List.mem_filter, List.mem_range]
  constructor
  · rintro ⟨a, ⟨⟨t2, ht2, heq⟩, hcmp⟩, hfst⟩
    subst heq
    simp only at hfst
    subst hfst
    exact ⟨ht2, hcmp⟩
  · rintro ⟨ht, hcmp⟩
    exact ⟨(t, series.getD t 0), ⟨⟨t, ht, rfl⟩, hcmp⟩, rfl⟩

/-- Claim C6 (confirmed): the outlier classification of `_plot_elements_sp`
is exact and boundary-inclusive — an index is an above-outlier exactly when
its value is `>=` the high limit and a below-outlier exactly when its value
is `<=` the low limit — and an undefined (NaN) bound yields an empty outlier
sequence rather than an error. -/
theorem outlier_index_classification (series : List ℚ) (hl ll : ℚ) (t : ℕ) :
    (above_outliers series none = [] ∧ below_outliers series none = []) ∧
    (t ∈ above_outliers series (some hl) ↔
      ∃ ht : t < series.length, hl ≤ series.get ⟨t, ht⟩) ∧
    (t ∈ below_outliers series (some ll) ↔
      ∃ ht : t < series.length, series.get ⟨t, ht⟩ ≤ ll) := by
  refine ⟨⟨?_, ?_⟩, ?_, ?_⟩
  · simp [above_outliers, highs, pyGe]
  · simp [below_outliers, lows, pyLe]
  · rw [mem_above_outliers]
    constructor
    · rintro ⟨ht, hcmp⟩
      rw [pyGe, decide_eq_true_eq, getD_zero_eq_get series t ht] at hcmp
      exact ⟨ht, hcmp⟩
    · rintro ⟨ht, hcmp⟩
      refine ⟨ht, ?_⟩
      rw [pyGe, decide_eq_true_eq, getD_zero_eq_get series t ht]
      exact hcmp
  · rw [mem_below_outliers]
    constructor
    · rintro ⟨ht, hcmp⟩
      rw [pyLe, decide_eq_true_eq, getD_zero_eq_get series t ht] at hcmp
      exact ⟨ht, hcmp⟩
    · rintro ⟨ht, hcmp⟩
      refine ⟨ht, ?_⟩
      rw [pyLe, decide_eq_true_eq, getD_zero_eq_get series t ht]
      exact hcmp

/-- Claim C7 (confirmed): for a derived series of the same length as the
record sequence, the exported table has exactly one row per record, the value
column reproduces the series, the first row is episode 0 at local timestep 0
even without an explicit `new_episode` marker, and between consecutive rows
the episode index increments (with the local timestep resetting to 0) exactly
at records flagged `new_episode`, the local timestep otherwise incrementing
by 1. -/
theorem csv_row_indexing (records : List InteractionDataPoint) (ed : List ℚ)
    (h : ed.length = records.length) :
    ∃ rows, save_time_dataset_csv records ed = some rows ∧
      rows.length = records.length ∧
      rows.map (fun r => r.2.2) = ed ∧
      (∀ r, rows.get? 0 = some r → r.1 = 0 ∧ r.2.1 = 0) ∧
      (∀ t r1 r2 dp, rows.get? t = some r1 → rows.get? (t + 1) = some r2 →
        records.get? (t + 1) = some dp → RowStep dp r1 r2) :=
  save_time_dataset_spec records ed h

/-- Claim C7, witness: instantiation at records with flags
`[false, true, false]` and the series `[10, 20, 30]`. -/
theorem csv_row_indexing_witness :
    ∃ rows, save_time_dataset_csv
        [{ new_episode := false }, { new_episode := true }, { new_episode := false }]
        [(10 : ℚ), 20, 30] = some rows ∧
      rows.length = ([{ new_episode := false }, { new_episode := true },
        { new_episode := false }] : List InteractionDataPoint).length ∧
      rows.map (fun r => r.2.2) = [(10 : ℚ), 20, 30] ∧
      (∀ r, rows.get? 0 = some r → r.1 = 0 ∧ r.2.1 = 0) ∧
      (∀ t r1 r2 dp, rows.get? t = some r1 → rows.get? (t + 1) = some r2 →
        ([{ new_episode := false }, { new_episode := true },
          { new_episode := false }] : List InteractionDataPoint).get? (t + 1) = some dp →
        RowStep dp r1 r2) :=
  csv_row_indexing _ _ (by decide)

/-- Claim C8, counterexample: a 0-length record sequence is not rejected —
the constructor stores it without validation and the tabular export runs to
completion with zero rows (the CSV file is written), so no
MalformedSequenceError precedes the export side effect. -/
theorem empty_sequence_no_failure :
    (AnalysisBase.init [] { num_processes := 4 } "png").data = some [] ∧
    save_time_dataset_csv [] [] = some [] := by
  decide

/-- Claim C8 (amended): the empty record sequence is accepted, not rejected:
`__init__` performs no validation, the tabular export on an empty sequence
succeeds with zero rows (still writing a file), and only the multi-panel
plotting fails — with a ValueError from `ep_breaks.remove(0)` on the empty
break list, not with a MalformedSequenceError. -/
theorem empty_sequence_accepted (cfg : AnalysisConfiguration) (fmt : String)
    (ed d : List ℚ) :
    AnalysisBase.init [] cfg fmt = { data := some [], config := cfg, img_fmt := fmt } ∧
    save_time_dataset_csv [] ed = some [] ∧
    plot_sp_eps_data d [] = none :=
  ⟨rfl, rfl, rfl⟩

/-- Claim C9 (amended): whenever `fade_video` returns a buffer it contains
exactly one output frame per input frame, and when both fade flags are false
it returns the input buffer unchanged; but when `fade_in` is set, `fade_out`
is not, and the computed `fade_steps` is zero on a non-empty buffer, the
function fails with a ZeroDivisionError instead of returning a buffer. -/
theorem fade_video_frame_count {Frame : Type} (fi : Frame → ℚ → Frame)
    (buffer : List Frame) (ratio : ℚ) (fade_in fade_out : Bool) :
    (∀ out, fade_video fi buffer ratio fade_in fade_out = some out →
      out.length = buffer.length) ∧
    (fade_in = false → fade_out = false →
      fade_video fi buffer ratio fade_in fade_out = some buffer) ∧
    (fade_in = true → fade_out = false → buffer ≠ [] →
      pyTrunc (ratio * (buffer.length : ℚ)) = 0 →
      fade_video fi buffer ratio fade_in fade_out = none) := by
  refine ⟨?_, ?_, ?_⟩
  · intro out h
    by_cases hg : (fade_in || fade_out) = true
    · rw [fade_video, if_neg (by simp [hg])] at h
      exact fadeLoop_length fi _ _ _ _ buffer 0 out h
    · rw [fade_video, if_pos (by simpa using hg)] at h
      injection h with he
      subst he
      rfl
  · intro h1 h2
    subst h1
    subst h2
    rw [fade_video, if_pos (by simp)]
  · intro h1 h2 hne hsteps
    subst h1
    subst h2
    obtain ⟨x, rest, rfl⟩ : ∃ x rest, buffer = x :: rest := by
      cases buffer with
      | nil => exact absurd rfl hne
      | cons x rest => exact ⟨x, rest, rfl⟩
    rw [fade_video, if_neg (by simp)]
    rw [hsteps]
    simp [fadeLoop, fadeFrameAt, pydiv, sub_self]

/-- Claim C9, witness: with both fade flags off, `fade_video` returns the
one-frame buffer unchanged. -/
theorem fade_video_frame_count_witness :
    fade_video (fun (f : ℕ) (_ : ℚ) => f) [7] 0 false false = some [7] :=
  (fade_video_frame_count (fun (f : ℕ) (_ : ℚ) => f) [7] 0 false false).2.1 rfl rfl

/-- Claim C9, counterexample: with `fade_in` on, `fade_out` off and
`fade_steps = int(0.0 * 1) = 0`, `fade_video` on a one-frame buffer fails
with a ZeroDivisionError (`t / fade_steps`) instead of returning one output
frame per input frame. -/
theorem fade_video_zero_steps_fails :
    fade_video (fun (f : ℕ) (_ : ℚ) => f) [5] 0 true false = none := by
  have hsteps : pyTrunc ((0 : ℚ) * (([5] : List ℕ).length : ℚ)) = 0 := by
    norm_num [pyTrunc]
  rw [fade_video, if_neg (by simp)]
  rw [hsteps]
  simp [fadeLoop, fadeFrameAt, pydiv, sub_self]

/-- Claim C10 (confirmed): `str2int` returns `None` for the empty string; for
any other string it raises an AssertionError whenever the parsed integer is
zero — the string "0" is rejected although it denotes a valid integer — and
it returns the parsed integer exactly when that integer is non-zero. -/
theorem str2int_rejects_zero :
    str2int "" = Except.ok none ∧
    (∀ s : String, s ≠ "" → pyInt s = some 0 →
      str2int s = Except.error PyError.assertionError) ∧
    (∀ (s : String) (n : ℤ), s ≠ "" → pyInt s = some n → n ≠ 0 →
      str2int s = Except.ok (some n)) ∧
    str2int "0" = Except.error PyError.assertionError := by
  refine ⟨rfl, ?_, ?_, rfl⟩
  · intro s hs hp
    rw [str2int, if_neg hs, hp]
    rfl
  · intro s n hs hp hn
    rw [str2int, if_neg hs, hp]
    simp [hn]

/-- Claim C10, witness: "-0" parses to zero and is rejected with an
AssertionError; "12" parses to a non-zero integer and is returned. -/
theorem str2int_rejects_zero_witness :
    str2int "-0" = Except.error PyError.assertionError ∧
    str2int "12" = Except.ok (some 12) :=
  ⟨(str2int_rejects_zero).2.1 "-0" (by decide) (by decide),
   (str2int_rejects_zero).2.2.1 "12" 12 (by decide) (by decide) (by decide)⟩
